import Mathlib

/-
Verification of the selenobot data pipeline (selenobot/dataset.py and
selenobot/classifiers.py): a shallow embedding of the Dataset record access,
the BalancedBatchSampler index-resampling algorithm, the weighted binary
cross-entropy loss and the Classifier.predict thresholding path, together
with theorems settling the specification claims about them.

Modelling conventions:
* Python strings are modelled as `List Char`; `']' in id` is `List.contains`.
* Python ints are `Int`; `batch_size * 0.5` is exact in binary floating point
  and `int(...)` truncates toward zero, so `int(batch_size * 0.5)` is
  `Int.tdiv batch_size 2`; Python `//` is floor division, `Int.fdiv`.
* numpy / torch calls made by the source are embedded by small Lean
  functions (`npResize`, `pyTake`, `listChunks`) that reproduce their
  documented behaviour on 1-D integer arrays, including their error cases.
* Fallible construction returns `Except`: each `.error` constructor is named
  after the Python exception the source raises on that path.
* The random shuffles (`random.shuffle`, `np.random.shuffle`) are modelled
  as explicit function parameters `s1 s2 s3`; theorems that depend on them
  being shuffles assume they permute their argument.
-/

namespace Selenobot

/-- One row of the input DataFrame: an embedding vector, a 0/1 label and a
string id.  Values irrelevant to the verified claims (the floats) are
modelled as rationals. -/
structure DataRow where
  emb : List Rat
  label : Rat
  id : List Char
  deriving DecidableEq

/-- The Dataset of dataset.py: aligned embeddings, labels and ids, all
derived from one DataFrame, so all of equal length by construction. -/
structure Dataset where
  rows : List DataRow
  deriving DecidableEq

/-- self.length = len(data) -/
def Dataset.length (d : Dataset) : Nat := d.rows.length

/-- self.ids = data['id'] -/
def Dataset.ids (d : Dataset) : List (List Char) := d.rows.map DataRow.id

/-- self.labels -/
def Dataset.labels (d : Dataset) : List Rat := d.rows.map DataRow.label

/-- self.embeddings (one row of the embedding matrix per record) -/
def Dataset.embeddings (d : Dataset) : List (List Rat) := d.rows.map DataRow.emb

/-- an id is recognised as a (truncated) selenoprotein iff it contains ']' -/
def isSelenoproteinId (id : List Char) : Bool := id.contains ']'

/-- get_selenoprotein_indices: np.where([']' in id for id in self.ids])[0],
the indices with a ']' marker, in increasing order. -/
def Dataset.selenoproteinIndices (d : Dataset) : List Nat :=
  (List.range d.ids.length).filter fun i => isSelenoproteinId (d.ids.getD i [])

/-- the complement set list(set(range(len(data_source))) - set(sel_idxs)).
Python set iteration order is unspecified; the list is immediately shuffled
by an arbitrary permutation, so it is modelled in increasing order. -/
def Dataset.nonSelenoproteinIndices (d : Dataset) : List Nat :=
  (List.range d.length).filter fun i => !isSelenoproteinId (d.ids.getD i [])

/-- Errors raised by BalancedBatchSampler.__init__, named after the Python
exception raised on the corresponding path:
* `imbalanceAssertion`: the AssertionError of the explicit
  `len(sel_idxs) < len(non_sel_idxs)` check;
* `zeroDivisionError`: ZeroDivisionError, from `len(non_sel_idxs) // 0`
  or from `np.split(_, 0)` (whose `N % sections` divides by zero);
* `resizeValueError`: ValueError from `np.resize` on a negative size;
* `splitValueError`: ValueError from `np.split` with negative sections;
* `shapeAssertion`: the final AssertionError on the batch-table shape. -/
inductive SamplerError where
  | imbalanceAssertion
  | zeroDivisionError
  | resizeValueError
  | splitValueError
  | shapeAssertion
  deriving DecidableEq

/-- num_sel_per_batch = int(batch_size * r) with r = 0.5: float truncation
toward zero, i.e. truncating integer division by 2. -/
def numSelPerBatch (batchSize : Int) : Int := Int.tdiv batchSize 2

/-- num_non_sel_per_batch = batch_size - num_sel_per_batch -/
def numNonSelPerBatch (batchSize : Int) : Int := batchSize - numSelPerBatch batchSize

/-- num_batches = len(non_sel_idxs) // (batch_size - num_sel_per_batch),
Python floor division. -/
def numBatchesFor (nMaj : Nat) (batchSize : Int) : Int :=
  Int.fdiv (nMaj : Int) (numNonSelPerBatch batchSize)

/-- Python slice a[:k] on a list of length n: the first k elements for
k ≥ 0, and all but the last |k| elements for k < 0. -/
def pyTake (l : List Nat) (k : Int) : List Nat :=
  if 0 ≤ k then l.take k.toNat else l.take (l.length - (-k).toNat)

/-- np.resize(a, target) on a 1-D array: cyclic repetition of a truncated
to the target length; an empty input array yields zeros. -/
def npResize (l : List Nat) (target : Nat) : List Nat :=
  if l.length = 0 then List.replicate target 0
  else (List.range target).map fun j => l.getD (j % l.length) 0

/-- k consecutive chunks of the given size taken from the front of l
(np.split produces exactly `sections` chunks of size len/sections). -/
def listChunks (l : List Nat) : Nat → Nat → List (List Nat)
  | 0, _ => []
  | k + 1, size => l.take size :: listChunks (l.drop size) k size

/-- The batch table built by lines 100-102 of dataset.py:
sel_batches = np.split(sel2, nb), non_sel_batches = np.split(nonSel2, nb),
self.batches = np.concatenate([sel_batches, non_sel_batches], axis=1),
which places the selenoprotein chunk first in every row. -/
def chunkTable (sel2 nonSel2 : List Nat) (nb : Nat) : List (List Nat) :=
  List.zipWith (fun a c => a ++ c)
    (listChunks sel2 nb (sel2.length / nb)) (listChunks nonSel2 nb (nonSel2.length / nb))

/-- The tail of BalancedBatchSampler.__init__ once num_batches = nb is
known: the two np.split calls (each raising ValueError unless the length
divides evenly into nb sections), the concatenation, and the final shape
assertion self.batches.shape == (num_batches, batch_size). -/
def joinBatches (sel2 nonSel2 : List Nat) (nb : Nat) (batchSize : Int) :
    Except SamplerError (List (List Nat)) :=
  if sel2.length % nb ≠ 0 then .error .splitValueError
  else if nonSel2.length % nb ≠ 0 then .error .splitValueError
  else if (chunkTable sel2 nonSel2 nb).length = nb ∧
      ∀ row ∈ chunkTable sel2 nonSel2 nb, (row.length : Int) = batchSize then
    .ok (chunkTable sel2 nonSel2 nb)
  else .error .shapeAssertion

/-- Line 95 of dataset.py:
sel_idxs = np.resize(sel_idxs, num_batches * num_sel_per_batch) on the
already shuffled selenoprotein indices, followed by line 97's
np.random.shuffle (the third shuffle, s3). -/
def selResized (d : Dataset) (batchSize : Int) (s1 s2 s3 : List Nat → List Nat) : List Nat :=
  s3 (npResize (s1 d.selenoproteinIndices)
    (numBatchesFor (s2 d.nonSelenoproteinIndices).length batchSize * numSelPerBatch batchSize).toNat)

/-- Line 94 of dataset.py:
non_sel_idxs = non_sel_idxs[:num_batches * num_non_sel_per_batch] on the
already shuffled non-selenoprotein indices. -/
def nonSelTruncated (d : Dataset) (batchSize : Int) (s2 : List Nat → List Nat) : List Nat :=
  pyTake (s2 d.nonSelenoproteinIndices)
    (numBatchesFor (s2 d.nonSelenoproteinIndices).length batchSize * numNonSelPerBatch batchSize)

/-- BalancedBatchSampler.__init__(data_source, batch_size), with the three
in-place shuffles (random.shuffle(sel_idxs), random.shuffle(non_sel_idxs),
np.random.shuffle(resized sel_idxs)) passed in as s1, s2, s3.  Returns the
self.batches table on success, and otherwise the first Python exception the
source raises, in source order:
1. the imbalance assertion;
2. ZeroDivisionError when batch_size - int(batch_size*0.5) = 0;
3. ValueError from np.resize when num_batches * num_sel_per_batch < 0;
4. np.split of the resized selenoprotein array, then of the truncated
   non-selenoprotein array (ZeroDivisionError for 0 sections, ValueError
   for negative sections or an uneven division);
5. the final shape assertion. -/
def samplerBatches (d : Dataset) (batchSize : Int) (s1 s2 s3 : List Nat → List Nat) :
    Except SamplerError (List (List Nat)) :=
  if d.nonSelenoproteinIndices.length ≤ d.selenoproteinIndices.length then
    .error .imbalanceAssertion
  else if numNonSelPerBatch batchSize = 0 then
    .error .zeroDivisionError
  else if numBatchesFor (s2 d.nonSelenoproteinIndices).length batchSize * numSelPerBatch batchSize < 0 then
    .error .resizeValueError
  else if numBatchesFor (s2 d.nonSelenoproteinIndices).length batchSize = 0 then
    .error .zeroDivisionError
  else if numBatchesFor (s2 d.nonSelenoproteinIndices).length batchSize < 0 then
    .error .splitValueError
  else
    joinBatches (selResized d batchSize s1 s2 s3) (nonSelTruncated d batchSize s2)
      (numBatchesFor (s2 d.nonSelenoproteinIndices).length batchSize).toNat
      batchSize

instance exceptDecEq {ε α : Type} [DecidableEq ε] [DecidableEq α] :
    DecidableEq (Except ε α) := fun a b =>
  match a, b with
  | .error e, .error f =>
    if h : e = f then isTrue (by rw [h]) else isFalse (by simp [h])
  | .ok x, .ok y =>
    if h : x = y then isTrue (by rw [h]) else isFalse (by simp [h])
  | .error _, .ok _ => isFalse (by simp)
  | .ok _, .error _ => isFalse (by simp)

/-- Concrete Dataset with one selenoprotein id ("x]") among four records,
used to instantiate theorems. -/
def dsA : Dataset :=
  ⟨[⟨[], 1, ['x', ']']⟩, ⟨[], 0, ['a']⟩, ⟨[], 0, ['b']⟩, ⟨[], 0, ['c']⟩]⟩

/-- Concrete Dataset with three selenoprotein ids among seven records. -/
def dsB : Dataset :=
  ⟨[⟨[], 1, ['a', ']']⟩, ⟨[], 1, ['b', ']']⟩, ⟨[], 1, ['c', ']']⟩,
    ⟨[], 0, ['d']⟩, ⟨[], 0, ['e']⟩, ⟨[], 0, ['f']⟩, ⟨[], 0, ['g']⟩]⟩

/-- Concrete Dataset with no selenoprotein ids among four records. -/
def dsC : Dataset :=
  ⟨[⟨[], 0, ['a']⟩, ⟨[], 0, ['b']⟩, ⟨[], 0, ['c']⟩, ⟨[], 0, ['d']⟩]⟩

/-- Errors raised by Dataset.__getitem__, named after the Python exception:
`indexError` from tensor indexing (torch), `keyError` from the pandas Series
label lookup self.ids[idx]. -/
inductive LookupError where
  | indexError
  | keyError
  deriving DecidableEq

/-- torch tensor indexing t[idx] along the first axis: nonnegative indices
must be < len, negative indices wrap once (t[-k] is t[len-k]), anything
else raises IndexError. -/
def torchGet [Inhabited α] (l : List α) (idx : Int) : Except LookupError α :=
  if 0 ≤ idx then
    if idx.toNat < l.length then .ok (l.getD idx.toNat default) else .error .indexError
  else
    if (-idx).toNat ≤ l.length then .ok (l.getD (l.length - (-idx).toNat) default)
    else .error .indexError

/-- pandas Series lookup s[idx] for a Series with the default RangeIndex:
idx is treated as a label, and the only integer labels present are
0..len-1, so negative (and too large) indices raise KeyError. -/
def pandasGet [Inhabited α] (l : List α) (idx : Int) : Except LookupError α :=
  if 0 ≤ idx ∧ idx.toNat < l.length then .ok (l.getD idx.toNat default) else .error .keyError

/-- Dataset.__getitem__(idx): builds the dict
{'label': labels[idx], 'emb': embeddings[idx], 'id': ids[idx], 'idx': idx},
evaluating the tensor lookups first and the pandas lookup last, and
propagating the first exception raised. -/
def Dataset.getItem (d : Dataset) (idx : Int) :
    Except LookupError (Rat × List Rat × List Char × Int) :=
  match torchGet d.labels idx with
  | .error e => .error e
  | .ok label =>
    match torchGet d.embeddings idx with
    | .error e => .error e
    | .ok emb =>
      match pandasGet d.ids idx with
      | .error e => .error e
      | .ok i => .ok (label, emb, i, idx)

/-- Classifier.predict's thresholding path (classifiers.py lines 106-108):
`outputs = np.ones(outputs.shape)` replaces the forward-pass probabilities
by an array of ones (only the shape of the forward output survives), and
`outputs[np.where(outputs < threshold)] = 0` then zeroes the entries of
that ones array that are below the threshold.  Thresholds are Python
floats, modelled as rationals. -/
def predictWithThreshold (forwardOutputs : List Rat) (threshold : Rat) : List Rat :=
  let ones := forwardOutputs.map fun _ => (1 : Rat)
  ones.map fun o => if o < threshold then 0 else o

/-- elementwise binary cross-entropy as computed (in exact real arithmetic)
by torch.nn.functional.binary_cross_entropy with reduction='none':
-t*log(o) - (1-t)*log(1-o).  The embedding idealises the float evaluation
(and torch's clamping of log below -100) as exact real arithmetic. -/
noncomputable def bceElementwise (o t : Real) : Real :=
  -(t * Real.log o) - (1 - t) * Real.log (1 - o)

/-- torch.where(targets == 1, w, 1): the per-element weight vector. -/
noncomputable def bceWeight (w t : Real) : Real := if t = 1 then w else 1

/-- WeightedBCELoss.forward(outputs, targets) with configured weight w:
ce = binary_cross_entropy(outputs, targets, reduction='none'),
then (ce * torch.where(targets == 1, w, 1)).mean(), where .mean() of a
tensor is its sum divided by its element count. -/
noncomputable def weightedBCEForward (w : Real) (outputs targets : List Real) : Real :=
  let ce := List.zipWith bceElementwise outputs targets
  let wv := targets.map (bceWeight w)
  let prod := List.zipWith (fun a c => a * c) ce wv
  prod.sum / prod.length

/-- Modelled from the spec's formula (section 4.4) for comparison with the
source computation: mean over elements of bce(o_i, t_i) * w_i. -/
noncomputable def weightedBCESpecFormula (w : Real) (outputs targets : List Real) : Real :=
  (List.zipWith (fun o t => bceElementwise o t * bceWeight w t) outputs targets).sum
    / outputs.length

/-! Arithmetic helper lemmas about the integer quantities of the sampler. -/

theorem numSelPerBatch_ofNat (n : Nat) : numSelPerBatch (Int.ofNat n) = Int.ofNat (n / 2) := rfl

theorem numSelPerBatch_negSucc (m : Nat) :
    numSelPerBatch (Int.negSucc m) = -Int.ofNat ((m + 1) / 2) := rfl

theorem fdiv_ofNat (m n : Nat) : Int.fdiv (Int.ofNat m) (Int.ofNat n) = Int.ofNat (m / n) := by
  cases m with
  | zero => rw [Nat.zero_div]; rfl
  | succ m => rfl

theorem fdiv_ofNat_negSucc (m n : Nat) :
    Int.fdiv (Int.ofNat (m + 1)) (Int.negSucc n) = Int.negSucc (m / (n + 1)) := rfl

theorem numNonSelPerBatch_ofNat (n : Nat) :
    numNonSelPerBatch (Int.ofNat n) = Int.ofNat (n - n / 2) := by
  unfold numNonSelPerBatch
  rw [numSelPerBatch_ofNat]
  simp only [Int.ofNat_eq_natCast]
  omega

theorem numNonSelPerBatch_pos_of_pos {b : Int} (hb : 1 ≤ b) : 0 < numNonSelPerBatch b := by
  match b, hb with
  | Int.ofNat n, _ =>
    rw [numNonSelPerBatch_ofNat]
    simp only [Int.ofNat_eq_natCast] at *
    omega

theorem numNonSelPerBatch_neg_of_neg {b : Int} (hb : b < 0) : numNonSelPerBatch b < 0 := by
  match b, hb with
  | Int.negSucc m, _ =>
    unfold numNonSelPerBatch
    rw [numSelPerBatch_negSucc]
    simp only [Int.ofNat_eq_natCast, Int.negSucc_eq]
    omega

theorem numNonSelPerBatch_nonpos_of_nonpos {b : Int} (hb : b ≤ 0) : numNonSelPerBatch b ≤ 0 := by
  rcases lt_or_eq_of_le hb with h | h
  · exact le_of_lt (numNonSelPerBatch_neg_of_neg h)
  · subst h; rfl

theorem numSelPerBatch_nonpos_of_nonpos {b : Int} (hb : b ≤ 0) : numSelPerBatch b ≤ 0 := by
  match b, hb with
  | Int.ofNat 0, _ => rfl
  | Int.negSucc m, _ =>
    rw [numSelPerBatch_negSucc]
    simp only [Int.ofNat_eq_natCast]
    omega

theorem numBatchesFor_neg {nMaj : Nat} {b : Int} (hMaj : 0 < nMaj)
    (hb : numNonSelPerBatch b < 0) : numBatchesFor nMaj b < 0 := by
  obtain ⟨j, hj⟩ : ∃ j, numNonSelPerBatch b = Int.negSucc j := by
    match hbe : numNonSelPerBatch b, hb with
    | Int.negSucc j, _ => exact ⟨j, rfl⟩
  obtain ⟨k, rfl⟩ : ∃ k, nMaj = k + 1 := ⟨nMaj - 1, by omega⟩
  unfold numBatchesFor
  rw [hj]
  rw [show ((k + 1 : Nat) : Int) = Int.ofNat (k + 1) from rfl, fdiv_ofNat_negSucc]
  exact Int.negSucc_lt_zero _

/-- In the only surviving path the batch size is positive: a nonpositive
batch size forces num_non_sel_per_batch ≤ 0, hence either the
ZeroDivisionError branch or a negative num_batches. -/
theorem batchSize_pos_of_path {d : Dataset} {b : Int} {s2 : List Nat → List Nat}
    (hMaj : 0 < (s2 d.nonSelenoproteinIndices).length)
    (h2 : ¬ numNonSelPerBatch b = 0)
    (h5 : ¬ numBatchesFor (s2 d.nonSelenoproteinIndices).length b < 0) : 1 ≤ b := by
  by_contra hb
  push_neg at hb
  have hb' : b ≤ 0 := by omega
  have := numNonSelPerBatch_nonpos_of_nonpos hb'
  have hneg : numNonSelPerBatch b < 0 := lt_of_le_of_ne this h2
  exact h5 (numBatchesFor_neg hMaj hneg)

theorem numSelPerBatch_eq_floor {b : Int} (hb : 0 ≤ b) : numSelPerBatch b = Int.fdiv b 2 := by
  match b, hb with
  | Int.ofNat n, _ =>
    rw [numSelPerBatch_ofNat, show (2 : Int) = Int.ofNat 2 from rfl, fdiv_ofNat]

/-! Helper lemmas about the list primitives. -/

theorem listChunks_length (l : List Nat) (k size : Nat) : (listChunks l k size).length = k := by
  induction k generalizing l with
  | zero => rfl
  | succ k ih => simp [listChunks, ih]

theorem listChunks_mem_length {l : List Nat} {k size : Nat} (h : l.length = k * size)
    {c : List Nat} (hc : c ∈ listChunks l k size) : c.length = size := by
  induction k generalizing l with
  | zero => simp [listChunks] at hc
  | succ k ih =>
    simp only [listChunks, List.mem_cons] at hc
    rcases hc with rfl | hc
    · rw [List.length_take]
      have : size ≤ l.length := by rw [h]; nlinarith
      omega
    · exact ih (by rw [List.length_drop, h]; ring_nf; omega) hc

theorem listChunks_flatten {l : List Nat} {k size : Nat} (h : l.length = k * size) :
    (listChunks l k size).flatten = l := by
  induction k generalizing l with
  | zero =>
    simp only [listChunks, List.flatten_nil]
    exact (List.eq_nil_of_length_eq_zero (by omega)).symm
  | succ k ih =>
    simp only [listChunks, List.flatten_cons]
    rw [@ih (l.drop size) (by rw [List.length_drop, h]; ring_nf; omega)]
    exact List.take_append_drop size l

theorem listChunks_mem_subset {l : List Nat} {k size : Nat} {c : List Nat}
    (hc : c ∈ listChunks l k size) : ∀ x ∈ c, x ∈ l := by
  induction k generalizing l with
  | zero => simp [listChunks] at hc
  | succ k ih =>
    simp only [listChunks, List.mem_cons] at hc
    rcases hc with rfl | hc
    · exact fun x hx => List.take_subset size l hx
    · exact fun x hx => List.drop_subset size l (ih hc x hx)

theorem zipWith_append_flatten_perm (A B : List (List Nat)) (h : A.length = B.length) :
    (List.zipWith (fun a c => a ++ c) A B).flatten.Perm (A.flatten ++ B.flatten) := by
  induction A generalizing B with
  | nil =>
    cases B with
    | nil => simp
    | cons c B => simp at h
  | cons a A ih =>
    cases B with
    | nil => simp at h
    | cons c B =>
      simp only [List.zipWith_cons_cons, List.flatten_cons]
      have ihp := ih B (by simpa using h)
      have p1 : (a ++ c ++ (List.zipWith (fun a c => a ++ c) A B).flatten).Perm
          (a ++ c ++ (A.flatten ++ B.flatten)) := ihp.append_left (a ++ c)
      refine p1.trans ?_
      rw [List.perm_iff_count]
      intro x
      simp only [List.count_append]
      ring

theorem npResize_length (l : List Nat) (t : Nat) : (npResize l t).length = t := by
  unfold npResize
  split <;> simp

theorem npResize_getD {l : List Nat} (hl : 0 < l.length) (t j : Nat) (hj : j < t) :
    (npResize l t).getD j 0 = l.getD (j % l.length) 0 := by
  unfold npResize
  rw [if_neg (by omega)]
  rw [List.getD_eq_getElem _ _ (by simpa using hj)]
  simp

theorem npResize_subset {l : List Nat} (hl : 0 < l.length) (t : Nat) :
    ∀ x ∈ npResize l t, x ∈ l := by
  unfold npResize
  rw [if_neg (by omega)]
  intro x hx
  simp only [List.mem_map, List.mem_range] at hx
  obtain ⟨j, _, rfl⟩ := hx
  rw [List.getD_eq_getElem _ _ (Nat.mod_lt _ hl)]
  exact List.getElem_mem _

theorem npResize_mem_of_le {l : List Nat} {t : Nat} (ht : l.length ≤ t) :
    ∀ x ∈ l, x ∈ npResize l t := by
  intro x hx
  have hl : 0 < l.length := List.length_pos.mpr (List.ne_nil_of_mem hx)
  obtain ⟨j, hj, rfl⟩ := List.getElem_of_mem hx
  have h1 : (npResize l t).getD j 0 = l.getD (j % l.length) 0 := npResize_getD hl t j (by omega)
  rw [Nat.mod_eq_of_lt hj, List.getD_eq_getElem _ _ hj] at h1
  have h2 : j < (npResize l t).length := by rw [npResize_length]; omega
  rw [List.getD_eq_getElem _ _ h2] at h1
  rw [← h1]
  exact List.getElem_mem _

theorem toNat_mul_of_nonneg {a c : Int} (ha : 0 ≤ a) (hc : 0 ≤ c) :
    (a * c).toNat = a.toNat * c.toNat := by
  obtain ⟨m, rfl⟩ := Int.eq_ofNat_of_zero_le ha
  obtain ⟨n, rfl⟩ := Int.eq_ofNat_of_zero_le hc
  rw [← Int.natCast_mul, Int.toNat_natCast, Int.toNat_natCast, Int.toNat_natCast]

theorem pyTake_subset (l : List Nat) (k : Int) : ∀ x ∈ pyTake l k, x ∈ l := by
  unfold pyTake
  split
  · exact fun x hx => List.take_subset _ _ hx
  · exact fun x hx => List.take_subset _ _ hx

theorem pyTake_sublist (l : List Nat) (k : Int) : (pyTake l k).Sublist l := by
  unfold pyTake
  split
  · exact List.take_sublist _ _
  · exact List.take_sublist _ _

theorem mem_zipWith_append {A B : List (List Nat)} {row : List Nat}
    (h : row ∈ List.zipWith (fun a c => a ++ c) A B) :
    ∃ a ∈ A, ∃ c ∈ B, row = a ++ c := by
  induction A generalizing B with
  | nil => simp at h
  | cons a A ih =>
    cases B with
    | nil => simp at h
    | cons c B =>
      simp only [List.zipWith_cons_cons, List.mem_cons] at h
      rcases h with rfl | h
      · exact ⟨a, List.mem_cons_self _ _, c, List.mem_cons_self _ _, rfl⟩
      · obtain ⟨a', ha, c', hc, rfl⟩ := ih h
        exact ⟨a', List.mem_cons_of_mem _ ha, c', List.mem_cons_of_mem _ hc, rfl⟩

theorem sel_nonSel_disjoint {d : Dataset} {i : Nat} (h : i ∈ d.selenoproteinIndices) :
    i ∉ d.nonSelenoproteinIndices := by
  unfold Dataset.selenoproteinIndices at h
  unfold Dataset.nonSelenoproteinIndices
  intro hmem
  rw [List.mem_filter] at h hmem
  rw [h.2] at hmem
  exact absurd hmem.2 (by simp)

theorem nodup_nonSelenoproteinIndices (d : Dataset) : d.nonSelenoproteinIndices.Nodup :=
  List.Nodup.filter _ (List.nodup_range _)

/-! Inversion of a successful sampler construction. -/

theorem samplerBatches_ok_inv {d : Dataset} {b : Int} {s1 s2 s3 : List Nat → List Nat}
    {batches : List (List Nat)} (h : samplerBatches d b s1 s2 s3 = .ok batches) :
    d.selenoproteinIndices.length < d.nonSelenoproteinIndices.length ∧
    numNonSelPerBatch b ≠ 0 ∧
    0 < numBatchesFor (s2 d.nonSelenoproteinIndices).length b ∧
    (selResized d b s1 s2 s3).length %
      (numBatchesFor (s2 d.nonSelenoproteinIndices).length b).toNat = 0 ∧
    (nonSelTruncated d b s2).length %
      (numBatchesFor (s2 d.nonSelenoproteinIndices).length b).toNat = 0 ∧
    batches = chunkTable (selResized d b s1 s2 s3) (nonSelTruncated d b s2)
      (numBatchesFor (s2 d.nonSelenoproteinIndices).length b).toNat ∧
    batches.length = (numBatchesFor (s2 d.nonSelenoproteinIndices).length b).toNat ∧
    (∀ row ∈ batches, (row.length : Int) = b) := by
  unfold samplerBatches joinBatches at h
  split_ifs at h with h1 h2 h3 h4 h5 h6 h7 h8
  injection h with h
  subst h
  refine ⟨by omega, h2, by omega, by omega, by omega, rfl, h8.1, h8.2⟩

theorem samplerBatches_ok_batchSize_pos {d : Dataset} {b : Int} {s1 s2 s3 : List Nat → List Nat}
    {batches : List (List Nat)} (hs2 : ∀ l, (s2 l).Perm l)
    (h : samplerBatches d b s1 s2 s3 = .ok batches) : 1 ≤ b := by
  obtain ⟨h1, h2, h3, -⟩ := samplerBatches_ok_inv h
  refine @batchSize_pos_of_path d b s2 ?_ h2 (by omega)
  rw [(hs2 _).length_eq]
  omega

/-- C1: for every Dataset with n_min < n_maj and every batch_size for which
construction succeeds, the batch table has exactly
num_batches = floor(n_maj / (batch_size - floor(batch_size * 0.5))) rows,
each of length batch_size, where n_min counts the indices whose id contains
']' and n_maj the remaining indices. -/
theorem claim_C1_batch_table_shape {d : Dataset} {b : Int} {s1 s2 s3 : List Nat → List Nat}
    {batches : List (List Nat)} (hs2 : ∀ l, (s2 l).Perm l)
    (hmin : d.selenoproteinIndices.length < d.nonSelenoproteinIndices.length)
    (h : samplerBatches d b s1 s2 s3 = .ok batches) :
    (batches.length : Int)
      = Int.fdiv (d.nonSelenoproteinIndices.length : Int) (b - Int.fdiv b 2) ∧
    ∀ row ∈ batches, (row.length : Int) = b := by
  obtain ⟨h1, h2, h3, h4, h5, h6, h7, h8⟩ := samplerBatches_ok_inv h
  have hb : 1 ≤ b := samplerBatches_ok_batchSize_pos hs2 h
  have hnb : (batches.length : Int) = numBatchesFor (s2 d.nonSelenoproteinIndices).length b := by
    rw [h7, Int.toNat_of_nonneg (le_of_lt h3)]
  refine ⟨?_, h8⟩
  rw [hnb]
  unfold numBatchesFor numNonSelPerBatch
  rw [numSelPerBatch_eq_floor (by omega), (hs2 _).length_eq]

/-- C1 witness: dsA (one selenoprotein id and three others) at batch_size 2
produces a table of shape (3, 2) = (floor(3 / 1), 2). -/
theorem claim_C1_batch_table_shape_witness :
    ((([[0, 1], [0, 2], [0, 3]] : List (List Nat)).length : Int)
        = Int.fdiv ((dsA.nonSelenoproteinIndices).length : Int) (2 - Int.fdiv 2 2) ∧
      ∀ row ∈ ([[0, 1], [0, 2], [0, 3]] : List (List Nat)), (row.length : Int) = 2) :=
  @claim_C1_batch_table_shape dsA 2 id id id [[0, 1], [0, 2], [0, 3]]
    (fun l => List.Perm.refl l) (by decide) (by decide)

/-- C5: for every Dataset in which the selenoprotein indices are at least
as numerous as the rest (n_min ≥ n_maj), construction fails immediately
with the imbalance assertion, producing no batch table. -/
theorem claim_C5_imbalance {d : Dataset} {b : Int} {s1 s2 s3 : List Nat → List Nat}
    (h : d.nonSelenoproteinIndices.length ≤ d.selenoproteinIndices.length) :
    samplerBatches d b s1 s2 s3 = .error .imbalanceAssertion := by
  unfold samplerBatches
  rw [if_pos h]

/-- C5 witness: a Dataset holding a single selenoprotein id. -/
theorem claim_C5_imbalance_witness :
    samplerBatches ⟨[⟨[], 0, ['x', ']']⟩]⟩ 2 id id id = .error .imbalanceAssertion :=
  claim_C5_imbalance (by decide)

/-- C6: for every Dataset with n_min < n_maj, construction with
batch_size ≤ 0, or with a batch_size so large that
num_batches = floor(n_maj / maj_per_batch) is zero, fails on the
degenerate-batch path: the ZeroDivisionError of the num_batches division
or of np.split with zero sections, or the ValueError of np.split with
negative sections — never the imbalance assertion and never success. -/
theorem claim_C6_degenerate {d : Dataset} {b : Int} {s1 s2 s3 : List Nat → List Nat}
    (hs2 : ∀ l, (s2 l).Perm l)
    (hmin : d.selenoproteinIndices.length < d.nonSelenoproteinIndices.length)
    (hdeg : b ≤ 0 ∨
      Int.fdiv (d.nonSelenoproteinIndices.length : Int) (b - Int.fdiv b 2) = 0) :
    samplerBatches d b s1 s2 s3 = .error .zeroDivisionError ∨
    samplerBatches d b s1 s2 s3 = .error .splitValueError := by
  have hlen : (s2 d.nonSelenoproteinIndices).length = d.nonSelenoproteinIndices.length :=
    (hs2 _).length_eq
  have hnot : ¬ d.nonSelenoproteinIndices.length ≤ d.selenoproteinIndices.length := by omega
  by_cases hb : b ≤ 0
  · rcases eq_or_lt_of_le hb with rfl | hblt
    · left
      unfold samplerBatches
      rw [if_neg hnot, if_pos (by decide : numNonSelPerBatch 0 = 0)]
    · have hnpb : numNonSelPerBatch b < 0 := numNonSelPerBatch_neg_of_neg hblt
      have hnb : numBatchesFor (s2 d.nonSelenoproteinIndices).length b < 0 :=
        numBatchesFor_neg (by omega) hnpb
      have hsel : numSelPerBatch b ≤ 0 := numSelPerBatch_nonpos_of_nonpos (le_of_lt hblt)
      right
      unfold samplerBatches
      rw [if_neg hnot, if_neg (by omega : ¬ numNonSelPerBatch b = 0),
        if_neg (not_lt.mpr (mul_nonneg_of_nonpos_of_nonpos (le_of_lt hnb) hsel)),
        if_neg (by omega : ¬ numBatchesFor (s2 d.nonSelenoproteinIndices).length b = 0),
        if_pos hnb]
  · push_neg at hb
    have hb1 : 1 ≤ b := by omega
    have hzero : Int.fdiv (d.nonSelenoproteinIndices.length : Int) (b - Int.fdiv b 2) = 0 := by
      rcases hdeg with hb0 | hz
      · omega
      · exact hz
    have hnpb : 0 < numNonSelPerBatch b := numNonSelPerBatch_pos_of_pos hb1
    have hnb : numBatchesFor (s2 d.nonSelenoproteinIndices).length b = 0 := by
      unfold numBatchesFor numNonSelPerBatch
      rw [numSelPerBatch_eq_floor (by omega), hlen]
      exact hzero
    left
    unfold samplerBatches
    rw [if_neg hnot, if_neg (by omega : ¬ numNonSelPerBatch b = 0),
      if_neg (by rw [hnb]; simp : ¬ numBatchesFor (s2 d.nonSelenoproteinIndices).length b
        * numSelPerBatch b < 0),
      if_pos hnb]

/-- C6 witness: with one selenoprotein and three others, batch_size 0 fails
with ZeroDivisionError and batch_size 10 (num_batches = 0) does too. -/
theorem claim_C6_degenerate_witness :
    (samplerBatches dsA 0 id id id = .error .zeroDivisionError ∨
      samplerBatches dsA 0 id id id = .error .splitValueError) ∧
    (samplerBatches dsA 10 id id id = .error .zeroDivisionError ∨
      samplerBatches dsA 10 id id id = .error .splitValueError) :=
  ⟨claim_C6_degenerate (fun l => List.Perm.refl l) (by decide) (Or.inl (by decide)),
    claim_C6_degenerate (fun l => List.Perm.refl l) (by decide) (Or.inr (by decide))⟩

/-- C4: the resize step of construction (line 95 of dataset.py,
np.resize of the shuffled selenoprotein indices to num_batches *
num_sel_per_batch elements) is cyclic repetition: the result has exactly
the target length, element j equals element (j mod n_min) of the input, so
the indices repeat in order with wraparound when the target exceeds n_min,
and the result is the prefix of length target when it does not. -/
theorem claim_C4_resize_cyclic (l : List Nat) (target : Nat) (h : 0 < l.length) :
    (npResize l target).length = target ∧
    (∀ j, j < target → (npResize l target).getD j 0 = l.getD (j % l.length) 0) ∧
    (target ≤ l.length → npResize l target = l.take target) := by
  refine ⟨npResize_length l target, fun j hj => npResize_getD h target j hj, fun ht => ?_⟩
  apply List.ext_getElem
  · rw [npResize_length, List.length_take]
    omega
  · intro i h1 h2
    rw [npResize_length] at h1
    have hgd : (npResize l target).getD i 0 = l.getD (i % l.length) 0 :=
      npResize_getD h target i h1
    rw [Nat.mod_eq_of_lt (by omega), List.getD_eq_getElem _ _ (by omega : i < l.length)] at hgd
    rw [List.getD_eq_getElem _ _ (by rw [npResize_length]; omega)] at hgd
    rw [hgd, List.getElem_take]

/-- C4 witness: resizing [5, 7] to five elements wraps cyclically. -/
theorem claim_C4_resize_cyclic_witness :
    (npResize [5, 7] 5).length = 5 ∧
    (∀ j, j < 5 → (npResize [5, 7] 5).getD j 0 = [5, 7].getD (j % 2) 0) ∧
    (5 ≤ 2 → npResize [5, 7] 5 = [5, 7].take 5) :=
  claim_C4_resize_cyclic [5, 7] 5 (by decide)

/-- C2 counterexample: on dsA (one selenoprotein id, three others) with
batch_size 3 construction succeeds with the single row [0, 1, 2], which
contains one index from the minority set, while round(batch_size * r) with
r = 0.5 is round(1.5) = 2 (so no row contains round(batch_size * r)
minority indices: the source uses int(batch_size * 0.5), which truncates). -/
theorem claim_C2_counterexample :
    samplerBatches dsA 3 id id id = .ok [[0, 1, 2]] ∧
    ([0, 1, 2] : List Nat).countP (fun i => decide (i ∈ dsA.selenoproteinIndices)) = 1 ∧
    round ((3 : Rat) * (1 / 2)) = 2 := by
  refine ⟨by decide, by decide, ?_⟩
  norm_num [round_eq]

/-- C2 amended: in every successful construction on a Dataset with at
least one selenoprotein index, every row of the batch table contains
exactly int(batch_size * 0.5) = floor(batch_size / 2) indices from the
minority set and batch_size - floor(batch_size / 2) indices from the
majority set (the claim's round(batch_size * r) corrected to the floor the
source computes, and n_min > 0 required since np.resize pads an empty
minority list with zeros). -/
theorem claim_C2_amended {d : Dataset} {b : Int} {s1 s2 s3 : List Nat → List Nat}
    {batches : List (List Nat)}
    (hs1 : ∀ l, (s1 l).Perm l) (hs2 : ∀ l, (s2 l).Perm l) (hs3 : ∀ l, (s3 l).Perm l)
    (hmin : 0 < d.selenoproteinIndices.length)
    (h : samplerBatches d b s1 s2 s3 = .ok batches) :
    ∀ row ∈ batches,
      row.countP (fun i => decide (i ∈ d.selenoproteinIndices)) = (Int.fdiv b 2).toNat ∧
      row.countP (fun i => decide (i ∈ d.nonSelenoproteinIndices))
        = (b - Int.fdiv b 2).toNat := by
  obtain ⟨h1, h2, h3, h4, h5, h6, h7, h8⟩ := samplerBatches_ok_inv h
  have hb : 1 ≤ b := samplerBatches_ok_batchSize_pos hs2 h
  intro row hrow
  have hrowlen : (row.length : Int) = b := h8 row hrow
  -- decompose the row into its selenoprotein chunk and majority chunk
  rw [h6] at hrow
  unfold chunkTable at hrow
  obtain ⟨sc, hsc, nc, hnc, rfl⟩ := mem_zipWith_append hrow
  -- every element of the selenoprotein chunk is a minority index
  have hs1len : 0 < (s1 d.selenoproteinIndices).length := by
    rw [(hs1 _).length_eq]; omega
  have hscSel : ∀ x ∈ sc, x ∈ d.selenoproteinIndices := by
    intro x hx
    have hx2 := listChunks_mem_subset hsc x hx
    unfold selResized at hx2
    rw [(hs3 _).mem_iff] at hx2
    have hx3 := npResize_subset hs1len _ x hx2
    rwa [(hs1 _).mem_iff] at hx3
  -- every element of the majority chunk is a majority index
  have hncNon : ∀ x ∈ nc, x ∈ d.nonSelenoproteinIndices := by
    intro x hx
    have hx2 := listChunks_mem_subset hnc x hx
    unfold nonSelTruncated at hx2
    have hx3 := pyTake_subset _ _ x hx2
    rwa [(hs2 _).mem_iff] at hx3
  -- chunk sizes: the selenoprotein chunk has length num_sel_per_batch
  have hnspb : 0 ≤ numSelPerBatch b := by
    rw [numSelPerBatch_eq_floor (by omega)]
    have : (0 : Int) ≤ b := by omega
    exact Int.fdiv_nonneg this (by omega)
  have hsel2len : (selResized d b s1 s2 s3).length =
      (numBatchesFor (s2 d.nonSelenoproteinIndices).length b).toNat
        * (numSelPerBatch b).toNat := by
    unfold selResized
    rw [(hs3 _).length_eq, npResize_length, toNat_mul_of_nonneg (le_of_lt h3) hnspb]
  have hsclen : sc.length = (numSelPerBatch b).toNat := by
    have hdvd : (selResized d b s1 s2 s3).length =
        (numBatchesFor (s2 d.nonSelenoproteinIndices).length b).toNat
          * ((selResized d b s1 s2 s3).length
            / (numBatchesFor (s2 d.nonSelenoproteinIndices).length b).toNat) :=
      (Nat.mul_div_cancel' (Nat.dvd_of_mod_eq_zero h4)).symm
    have := listChunks_mem_length hdvd hsc
    rw [this, hsel2len, Nat.mul_div_cancel_left _ (by omega : 0 <
      (numBatchesFor (s2 d.nonSelenoproteinIndices).length b).toNat)]
  -- counts: the minority predicate holds on all of sc and on none of nc
  have hcount1 : (sc ++ nc).countP (fun i => decide (i ∈ d.selenoproteinIndices))
      = sc.length := by
    rw [List.countP_append]
    have hA : sc.countP (fun i => decide (i ∈ d.selenoproteinIndices)) = sc.length :=
      List.countP_eq_length.mpr fun a ha => decide_eq_true (hscSel a ha)
    have hB : nc.countP (fun i => decide (i ∈ d.selenoproteinIndices)) = 0 :=
      List.countP_eq_zero.mpr fun a ha => by
        simp only [decide_eq_true_eq]
        intro hmem
        exact sel_nonSel_disjoint hmem (hncNon a ha)
    omega
  have hcount2 : (sc ++ nc).countP (fun i => decide (i ∈ d.nonSelenoproteinIndices))
      = nc.length := by
    rw [List.countP_append]
    have hA : sc.countP (fun i => decide (i ∈ d.nonSelenoproteinIndices)) = 0 :=
      List.countP_eq_zero.mpr fun a ha => by
        simp only [decide_eq_true_eq]
        exact sel_nonSel_disjoint (hscSel a ha)
    have hB : nc.countP (fun i => decide (i ∈ d.nonSelenoproteinIndices)) = nc.length :=
      List.countP_eq_length.mpr fun a ha => decide_eq_true (hncNon a ha)
    omega
  have hfloor : (numSelPerBatch b).toNat = (Int.fdiv b 2).toNat := by
    rw [numSelPerBatch_eq_floor (by omega)]
  have hlen2 : (sc.length : Int) + (nc.length : Int) = b := by
    rw [← hrowlen, List.length_append]
    push_cast
    ring
  constructor
  · rw [hcount1, hsclen, hfloor]
  · rw [hcount2]
    have hfd : Int.fdiv b 2 = (numSelPerBatch b) := (numSelPerBatch_eq_floor (by omega)).symm
    rw [hfd]
    omega

/-- C2 amended witness: dsA at batch_size 2 gives rows with exactly one
minority and one majority index each. -/
theorem claim_C2_amended_witness :
    ([0, 1] : List Nat).countP (fun i => decide (i ∈ dsA.selenoproteinIndices))
        = (Int.fdiv 2 2).toNat ∧
      ([0, 1] : List Nat).countP (fun i => decide (i ∈ dsA.nonSelenoproteinIndices))
        = ((2 : Int) - Int.fdiv 2 2).toNat :=
  @claim_C2_amended dsA 2 id id id [[0, 1], [0, 2], [0, 3]]
    (fun l => List.Perm.refl l) (fun l => List.Perm.refl l) (fun l => List.Perm.refl l)
    (by decide) (by decide) [0, 1] (by decide)

/-- C3 counterexample: on dsB (three selenoprotein ids, four others) with
batch_size 3 construction succeeds, but num_batches * num_sel_per_batch
= 2 * 1 < 3 = n_min, so np.resize truncates the minority list and the
minority index 2 appears in no row of the table. -/
theorem claim_C3_counterexample :
    samplerBatches dsB 3 id id id = .ok [[0, 3, 4], [1, 5, 6]] ∧
    2 ∈ dsB.selenoproteinIndices ∧
    ∀ row ∈ ([[0, 3, 4], [1, 5, 6]] : List (List Nat)), 2 ∉ row := by
  refine ⟨by decide, by decide, by decide⟩

/-- C3 amended: in every successful construction with 0 < n_min, every
minority index appears somewhere in the batch table provided
n_min ≤ num_batches * num_sel_per_batch (no truncation in the resize step;
when the minority slots are fewer than n_min, np.resize keeps only a
prefix of the shuffled minority list and the remaining minority indices
are dropped, as the counterexample shows). -/
theorem claim_C3_amended {d : Dataset} {b : Int} {s1 s2 s3 : List Nat → List Nat}
    {batches : List (List Nat)}
    (hs1 : ∀ l, (s1 l).Perm l) (hs2 : ∀ l, (s2 l).Perm l) (hs3 : ∀ l, (s3 l).Perm l)
    (hmin : 0 < d.selenoproteinIndices.length)
    (hcover : d.selenoproteinIndices.length ≤
      (numBatchesFor d.nonSelenoproteinIndices.length b * numSelPerBatch b).toNat)
    (h : samplerBatches d b s1 s2 s3 = .ok batches) :
    ∀ i ∈ d.selenoproteinIndices, ∃ row ∈ batches, i ∈ row := by
  obtain ⟨h1, h2, h3, h4, h5, h6, h7, h8⟩ := samplerBatches_ok_inv h
  intro i hi
  have hlen2 : (s2 d.nonSelenoproteinIndices).length = d.nonSelenoproteinIndices.length :=
    (hs2 _).length_eq
  have hi1 : i ∈ s1 d.selenoproteinIndices := (hs1 _).mem_iff.mpr hi
  have hresize : i ∈ npResize (s1 d.selenoproteinIndices)
      (numBatchesFor (s2 d.nonSelenoproteinIndices).length b * numSelPerBatch b).toNat := by
    refine npResize_mem_of_le ?_ i hi1
    rw [(hs1 _).length_eq, hlen2]
    exact hcover
  have hi2 : i ∈ selResized d b s1 s2 s3 := by
    unfold selResized
    exact (hs3 _).mem_iff.mpr hresize
  have hdvdA : (selResized d b s1 s2 s3).length =
      (numBatchesFor (s2 d.nonSelenoproteinIndices).length b).toNat
        * ((selResized d b s1 s2 s3).length
          / (numBatchesFor (s2 d.nonSelenoproteinIndices).length b).toNat) :=
    (Nat.mul_div_cancel' (Nat.dvd_of_mod_eq_zero h4)).symm
  have hflatA : (listChunks (selResized d b s1 s2 s3)
      (numBatchesFor (s2 d.nonSelenoproteinIndices).length b).toNat
      ((selResized d b s1 s2 s3).length
        / (numBatchesFor (s2 d.nonSelenoproteinIndices).length b).toNat)).flatten
      = selResized d b s1 s2 s3 := listChunks_flatten hdvdA
  have hperm := zipWith_append_flatten_perm
    (listChunks (selResized d b s1 s2 s3)
      (numBatchesFor (s2 d.nonSelenoproteinIndices).length b).toNat
      ((selResized d b s1 s2 s3).length
        / (numBatchesFor (s2 d.nonSelenoproteinIndices).length b).toNat))
    (listChunks (nonSelTruncated d b s2)
      (numBatchesFor (s2 d.nonSelenoproteinIndices).length b).toNat
      ((nonSelTruncated d b s2).length
        / (numBatchesFor (s2 d.nonSelenoproteinIndices).length b).toNat))
    (by rw [listChunks_length, listChunks_length])
  have hmemflat : i ∈ batches.flatten := by
    rw [h6]
    unfold chunkTable
    refine hperm.mem_iff.mpr ?_
    refine List.mem_append_left _ ?_
    rw [hflatA]
    exact hi2
  obtain ⟨row, hrow, hirow⟩ := List.mem_flatten.mp hmemflat
  exact ⟨row, hrow, hirow⟩

/-- C3 amended witness: on dsA at batch_size 2 the minority slots (three)
cover n_min = 1, and minority index 0 indeed appears in every row. -/
theorem claim_C3_amended_witness :
    ∃ row ∈ ([[0, 1], [0, 2], [0, 3]] : List (List Nat)), 0 ∈ row :=
  @claim_C3_amended dsA 2 id id id [[0, 1], [0, 2], [0, 3]]
    (fun l => List.Perm.refl l) (fun l => List.Perm.refl l) (fun l => List.Perm.refl l)
    (by decide) (by decide) (by decide) 0 (by decide)

/-- C10 counterexample: on dsC (no selenoprotein ids at all) with
batch_size 2 construction succeeds — np.resize of the empty minority list
fills the minority slots with zeros — and the majority index 0 occurs five
times across the table. -/
theorem claim_C10_counterexample :
    samplerBatches dsC 2 id id id = .ok [[0, 0], [0, 1], [0, 2], [0, 3]] ∧
    0 ∈ dsC.nonSelenoproteinIndices ∧
    ¬ ([[0, 0], [0, 1], [0, 2], [0, 3]] : List (List Nat)).flatten.count 0 ≤ 1 := by
  refine ⟨by decide, by decide, by decide⟩

/-- C10 amended: in every successful construction on a Dataset with at
least one selenoprotein index, each majority index occurs at most once in
the whole batch table (the majority list is duplicate-free, only truncated
and partitioned, and is disjoint from the minority indices filling the
other slots; n_min > 0 is required because with no minority indices
np.resize fills the minority slots with zeros, repeating index 0). -/
theorem claim_C10_amended {d : Dataset} {b : Int} {s1 s2 s3 : List Nat → List Nat}
    {batches : List (List Nat)}
    (hs1 : ∀ l, (s1 l).Perm l) (hs2 : ∀ l, (s2 l).Perm l) (hs3 : ∀ l, (s3 l).Perm l)
    (hmin : 0 < d.selenoproteinIndices.length)
    (h : samplerBatches d b s1 s2 s3 = .ok batches) :
    ∀ i ∈ d.nonSelenoproteinIndices, batches.flatten.count i ≤ 1 := by
  obtain ⟨h1, h2, h3, h4, h5, h6, h7, h8⟩ := samplerBatches_ok_inv h
  intro i hi
  have hdvdA : (selResized d b s1 s2 s3).length =
      (numBatchesFor (s2 d.nonSelenoproteinIndices).length b).toNat
        * ((selResized d b s1 s2 s3).length
          / (numBatchesFor (s2 d.nonSelenoproteinIndices).length b).toNat) :=
    (Nat.mul_div_cancel' (Nat.dvd_of_mod_eq_zero h4)).symm
  have hdvdB : (nonSelTruncated d b s2).length =
      (numBatchesFor (s2 d.nonSelenoproteinIndices).length b).toNat
        * ((nonSelTruncated d b s2).length
          / (numBatchesFor (s2 d.nonSelenoproteinIndices).length b).toNat) :=
    (Nat.mul_div_cancel' (Nat.dvd_of_mod_eq_zero h5)).symm
  have hperm := zipWith_append_flatten_perm
    (listChunks (selResized d b s1 s2 s3)
      (numBatchesFor (s2 d.nonSelenoproteinIndices).length b).toNat
      ((selResized d b s1 s2 s3).length
        / (numBatchesFor (s2 d.nonSelenoproteinIndices).length b).toNat))
    (listChunks (nonSelTruncated d b s2)
      (numBatchesFor (s2 d.nonSelenoproteinIndices).length b).toNat
      ((nonSelTruncated d b s2).length
        / (numBatchesFor (s2 d.nonSelenoproteinIndices).length b).toNat))
    (by rw [listChunks_length, listChunks_length])
  rw [h6]
  unfold chunkTable
  rw [hperm.count_eq i, List.count_append, listChunks_flatten hdvdA, listChunks_flatten hdvdB]
  -- no occurrence among the minority slots
  have hs1len : 0 < (s1 d.selenoproteinIndices).length := by
    rw [(hs1 _).length_eq]; omega
  have hA0 : (selResized d b s1 s2 s3).count i = 0 := by
    rw [List.count_eq_zero]
    intro hmem
    unfold selResized at hmem
    rw [(hs3 _).mem_iff] at hmem
    have hmem2 := npResize_subset hs1len _ i hmem
    rw [(hs1 _).mem_iff] at hmem2
    exact sel_nonSel_disjoint hmem2 hi
  -- at most one occurrence among the majority slots
  have hBnodup : (nonSelTruncated d b s2).Nodup := by
    unfold nonSelTruncated
    exact (pyTake_sublist _ _).nodup ((hs2 _).nodup_iff.mpr (nodup_nonSelenoproteinIndices d))
  have hB1 : (nonSelTruncated d b s2).count i ≤ 1 := List.nodup_iff_count_le_one.mp hBnodup i
  omega

/-- C10 amended witness: on dsA at batch_size 2 every majority index
occurs exactly once in the table. -/
theorem claim_C10_amended_witness :
    ([[0, 1], [0, 2], [0, 3]] : List (List Nat)).flatten.count 1 ≤ 1 :=
  @claim_C10_amended dsA 2 id id id [[0, 1], [0, 2], [0, 3]]
    (fun l => List.Perm.refl l) (fun l => List.Perm.refl l) (fun l => List.Perm.refl l)
    (by decide) (by decide) 1 (by decide)

/-! Helper lemmas for Dataset.__getitem__. -/

theorem torchGet_ok_nonneg {α : Type} [Inhabited α] {l : List α} {idx : Int}
    (h0 : 0 ≤ idx) (hlt : idx.toNat < l.length) :
    torchGet l idx = .ok (l.getD idx.toNat default) := by
  unfold torchGet
  rw [if_pos h0, if_pos hlt]

theorem torchGet_ok_neg {α : Type} [Inhabited α] {l : List α} {idx : Int}
    (h0 : ¬ 0 ≤ idx) (hw : (-idx).toNat ≤ l.length) :
    torchGet l idx = .ok (l.getD (l.length - (-idx).toNat) default) := by
  unfold torchGet
  rw [if_neg h0, if_pos hw]

theorem torchGet_err_ge {α : Type} [Inhabited α] {l : List α} {idx : Int}
    (h0 : 0 ≤ idx) (h : ¬ idx.toNat < l.length) : torchGet l idx = .error .indexError := by
  unfold torchGet
  rw [if_pos h0, if_neg h]

theorem torchGet_err_neg {α : Type} [Inhabited α] {l : List α} {idx : Int}
    (h0 : ¬ 0 ≤ idx) (hw : ¬ (-idx).toNat ≤ l.length) :
    torchGet l idx = .error .indexError := by
  unfold torchGet
  rw [if_neg h0, if_neg hw]

theorem pandasGet_ok {α : Type} [Inhabited α] {l : List α} {idx : Int}
    (h : 0 ≤ idx ∧ idx.toNat < l.length) :
    pandasGet l idx = .ok (l.getD idx.toNat default) := by
  unfold pandasGet
  rw [if_pos h]

theorem pandasGet_err {α : Type} [Inhabited α] {l : List α} {idx : Int}
    (h : ¬ (0 ≤ idx ∧ idx.toNat < l.length)) : pandasGet l idx = .error .keyError := by
  unfold pandasGet
  rw [if_neg h]

theorem Dataset.labels_length (d : Dataset) : d.labels.length = d.length :=
  List.length_map _ _

theorem Dataset.embeddings_length (d : Dataset) : d.embeddings.length = d.length :=
  List.length_map _ _

theorem Dataset.ids_length (d : Dataset) : d.ids.length = d.length :=
  List.length_map _ _

/-- C9: Dataset.__getitem__ returns the aligned (label, embedding, id, idx)
record exactly when 0 ≤ idx < size(), and fails with an out-of-range
lookup error (torch IndexError or pandas KeyError — the only two
constructors of LookupError) whenever idx is outside [0, size()); in
particular negative indices fail (the torch tensors would wrap, but the
pandas Series lookup self.ids[idx] has no negative integer labels). -/
theorem claim_C9_getitem (d : Dataset) (idx : Int) :
    ((0 ≤ idx ∧ idx < (d.length : Int)) →
      d.getItem idx = .ok (d.labels.getD idx.toNat 0, d.embeddings.getD idx.toNat [],
        d.ids.getD idx.toNat [], idx)) ∧
    (¬ (0 ≤ idx ∧ idx < (d.length : Int)) → ∃ e, d.getItem idx = .error e) := by
  constructor
  · rintro ⟨h0, hlt⟩
    have hlab : idx.toNat < d.labels.length := by rw [d.labels_length]; omega
    have hemb : idx.toNat < d.embeddings.length := by rw [d.embeddings_length]; omega
    have hids : idx.toNat < d.ids.length := by rw [d.ids_length]; omega
    unfold Dataset.getItem
    rw [torchGet_ok_nonneg h0 hlab, torchGet_ok_nonneg h0 hemb, pandasGet_ok ⟨h0, hids⟩]
    rfl
  · intro hout
    by_cases h0 : 0 ≤ idx
    · have hge : ¬ idx.toNat < d.labels.length := by
        rw [d.labels_length]
        omega
      refine ⟨.indexError, ?_⟩
      unfold Dataset.getItem
      rw [torchGet_err_ge h0 hge]
    · by_cases hw : (-idx).toNat ≤ d.length
      · refine ⟨.keyError, ?_⟩
        unfold Dataset.getItem
        rw [torchGet_ok_neg h0 (by rw [d.labels_length]; omega),
          torchGet_ok_neg h0 (by rw [d.embeddings_length]; omega),
          pandasGet_err (by intro hc; exact h0 hc.1)]
      · refine ⟨.indexError, ?_⟩
        unfold Dataset.getItem
        rw [torchGet_err_neg h0 (by rw [d.labels_length]; omega)]

/-- C9 witness: on dsA, index 0 returns its record while indices -1 and 4
fail. -/
theorem claim_C9_getitem_witness :
    dsA.getItem 0 = .ok (dsA.labels.getD (Int.toNat 0) 0,
      dsA.embeddings.getD (Int.toNat 0) [], dsA.ids.getD (Int.toNat 0) [], 0) ∧
    (∃ e, dsA.getItem (-1) = .error e) ∧ (∃ e, dsA.getItem 4 = .error e) :=
  ⟨(claim_C9_getitem dsA 0).1 (by decide), (claim_C9_getitem dsA (-1)).2 (by decide),
    (claim_C9_getitem dsA 4).2 (by decide)⟩

/-- C8: with a non-None threshold, Classifier.predict overwrites the
forward-pass outputs with np.ones before comparing, so the result depends
only on the length of the output: all zeros when 1 < threshold, all ones
otherwise, independent of the forward-pass probabilities. -/
theorem claim_C8_threshold_vacuous (forwardOutputs : List Rat) (threshold : Rat) :
    predictWithThreshold forwardOutputs threshold
      = (if 1 < threshold then List.replicate forwardOutputs.length 0
        else List.replicate forwardOutputs.length 1) ∧
    ∀ other : List Rat, other.length = forwardOutputs.length →
      predictWithThreshold other threshold = predictWithThreshold forwardOutputs threshold := by
  have key : ∀ l : List Rat, predictWithThreshold l threshold
      = if 1 < threshold then List.replicate l.length 0 else List.replicate l.length 1 := by
    intro l
    unfold predictWithThreshold
    rw [List.map_map]
    have hfun : ((fun o => if o < threshold then (0 : Rat) else o) ∘ fun _ => (1 : Rat))
        = fun _ : Rat => if 1 < threshold then (0 : Rat) else 1 := by
      funext x
      by_cases hc : (1 : Rat) < threshold
      · simp [hc]
      · simp [hc]
    rw [hfun]
    by_cases hc : (1 : Rat) < threshold
    · simp [hc]
    · simp [hc]
  refine ⟨key forwardOutputs, fun other hlen => ?_⟩
  rw [key other, key forwardOutputs, hlen]

/-- C8 witness: at threshold 2 the prediction for forward output [1/2] is
all zeros, and coincides with the prediction for the different forward
output [9/10]. -/
theorem claim_C8_threshold_vacuous_witness :
    (predictWithThreshold [1/2] 2
      = if (1 : Rat) < 2 then List.replicate 1 0 else List.replicate 1 1) ∧
    predictWithThreshold [9/10] 2 = predictWithThreshold [1/2] 2 :=
  ⟨(claim_C8_threshold_vacuous [1/2] 2).1,
    (claim_C8_threshold_vacuous [1/2] 2).2 [9/10] rfl⟩

/-! Helper lemma for the weighted BCE loss. -/

theorem zipWith_mul_map_weight (w : Real) :
    ∀ (o t : List Real), o.length = t.length →
      List.zipWith (fun a c => a * c) (List.zipWith bceElementwise o t) (t.map (bceWeight w))
        = List.zipWith (fun x y => bceElementwise x y * bceWeight w y) o t := by
  intro o
  induction o with
  | nil => intro t ht; cases t <;> rfl
  | cons x xs ih =>
    intro t ht
    cases t with
    | nil => rfl
    | cons y ys =>
      simp only [List.zipWith_cons_cons, List.map_cons]
      rw [ih ys (by simpa using ht)]

/-- C7: the weighted loss is the mean over elements of
bce(o_i, t_i) * w_i with w_i = W for t_i = 1 and 1 otherwise (the source
computes elementwise bce, multiplies by torch.where(targets == 1, W, 1)
and takes the mean, which equals the spec's formula whenever outputs and
targets have the same element count); and for outputs [0.9, 0.1], targets
[1, 0] and W = 3 the loss is within 0.02 of 0.21. -/
theorem claim_C7_weighted_bce (w : Real) (outputs targets : List Real)
    (hlen : outputs.length = targets.length)
    (ho : ∀ o ∈ outputs, 0 < o ∧ o < 1) (ht : ∀ t ∈ targets, t = 0 ∨ t = 1) :
    weightedBCEForward w outputs targets = weightedBCESpecFormula w outputs targets ∧
    |weightedBCEForward 3 [9/10, 1/10] [1, 0] - 21/100| < 1/50 := by
  constructor
  · simp only [weightedBCEForward, weightedBCESpecFormula]
    rw [zipWith_mul_map_weight w outputs targets hlen]
    have hlen2 : (List.zipWith (fun x y => bceElementwise x y * bceWeight w y)
        outputs targets).length = outputs.length := by
      rw [List.length_zipWith]
      omega
    rw [hlen2]
  · have hL : weightedBCEForward 3 [9/10, 1/10] [1, 0] = -2 * Real.log (9/10) := by
      unfold weightedBCEForward bceElementwise bceWeight
      norm_num
      ring
    have hub : Real.log ((9:Real)/10) ≤ -(1/10) := by
      have := Real.log_le_sub_one_of_pos (by norm_num : (0:Real) < 9/10)
      linarith
    have hlb : -(1/9 : Real) ≤ Real.log ((9:Real)/10) := by
      have h2 := Real.log_le_sub_one_of_pos (by norm_num : (0:Real) < ((9:Real)/10)⁻¹)
      rw [Real.log_inv] at h2
      have h3 : ((9:Real)/10)⁻¹ - 1 = 1/9 := by norm_num
      rw [h3] at h2
      linarith
    rw [hL, abs_lt]
    constructor <;> linarith

/-- C7 witness: the claim instance at outputs [0.9, 0.1], targets [1, 0],
weight 3. -/
theorem claim_C7_weighted_bce_witness :
    weightedBCEForward 3 [9/10, 1/10] [1, 0] = weightedBCESpecFormula 3 [9/10, 1/10] [1, 0] ∧
    |weightedBCEForward 3 [9/10, 1/10] [1, 0] - 21/100| < 1/50 :=
  claim_C7_weighted_bce 3 [9/10, 1/10] [1, 0] rfl
    (by
      intro o hm
      simp only [List.mem_cons, List.not_mem_nil, or_false] at hm
      rcases hm with rfl | rfl <;> norm_num)
    (by
      intro t hm
      simp only [List.mem_cons, List.not_mem_nil, or_false] at hm
      rcases hm with rfl | rfl
      · right; rfl
      · left; rfl)

end Selenobot
